import Mathlib

/-!
Shallow embedding of the cert-manager-notifier core: environment-variable
configuration loading (internal/config), the webhook delivery fan-out
(internal/webhook/notifier.go) and the certificate classification /
de-duplication monitor (internal/monitor).

Instants and durations are modelled as `Int` nanoseconds, following Go's
`time.Duration` representation.  External effects are modelled as explicit
parameters: the process environment is a function `String → String`
(Go `os.Getenv` returns `""` for an unset variable), the standard-library
parsers `time.ParseDuration` and `strconv.Atoi` are abstract parameters
`String → Option Int`, and one HTTP POST to one webhook
(`sendToWebhook`, pure I/O) is a parameter returning `none` on a 2xx
response and `some errorMessage` otherwise.
-/

namespace CertNotifier

/-- Go `time` package unit constants, in nanoseconds. -/
def second : Int := 1000000000

/-- Go `time.Minute` in nanoseconds. -/
def minute : Int := 60 * second

/-- Go `time.Hour` in nanoseconds. -/
def hour : Int := 60 * minute

/-- `config.WebhookConfig`: one configured destination. -/
structure WebhookConfig where
  name : String
  url : String
  headers : List (String × String)
  timeout : Int
  deriving DecidableEq

/-- `config.Config`: the application configuration.  The Go field
`Namespace` is rendered `ns` (`namespace` is reserved in Lean). -/
structure Config where
  webhooks : List WebhookConfig
  checkInterval : Int
  expirationThreshold : Int
  ns : String
  healthPort : Int
  logLevel : String
  deriving DecidableEq

/-- Go map assignment `Headers[k] = v`: overwrite the binding if the key is
present, otherwise add it. -/
def setHeader (hs : List (String × String)) (k v : String) : List (String × String) :=
  match hs with
  | [] => [(k, v)]
  | (k₀, v₀) :: rest => if k₀ = k then (k, v) :: rest else (k₀, v₀) :: setHeader rest k v

/-- Go `strings.Split` on a single-character separator (the source only
splits on `","`), over the character list. -/
def splitChar (sep : Char) : List Char → List (List Char)
  | [] => [[]]
  | c :: cs =>
    let r := splitChar sep cs
    if c = sep then [] :: r
    else
      match r with
      | [] => [[c]]
      | g :: gs => (c :: g) :: gs

/-- Go `strings.Split(s, sep)` for a one-character `sep`. -/
def splitOnChar (sep : Char) (s : String) : List String :=
  (splitChar sep s.data).map (fun l => ⟨l⟩)

/-- Drop leading whitespace characters (Go `unicode.IsSpace`, restricted to
the common ASCII whitespace handled by `Char.isWhitespace`). -/
def dropSpaces : List Char → List Char
  | [] => []
  | c :: cs => if c.isWhitespace then dropSpaces cs else c :: cs

/-- Go `strings.TrimSpace`: drop leading and trailing whitespace. -/
def trimSpace (s : String) : String :=
  ⟨(dropSpaces (dropSpaces s.data).reverse).reverse⟩

/-- Go `strings.SplitN(s, sep, 2)` for a one-character `sep`: `none` when
the separator does not occur (Go result length 1), otherwise the parts
before and after the first occurrence (Go result length 2). -/
def splitN2Char (sep : Char) : List Char → Option (List Char × List Char)
  | [] => none
  | c :: cs =>
    if c = sep then some ([], cs)
    else
      match splitN2Char sep cs with
      | none => none
      | some (k, v) => some (c :: k, v)

/-- The header-parsing loop of `loadWebhooks`: for each comma-separated
`pair`, when `SplitN(pair, ":", 2)` yields two parts, store
`trim(key) → trim(value)`. -/
def parseHeaderPairs (hs : List (String × String)) : List String → List (String × String)
  | [] => hs
  | pair :: rest =>
    match splitN2Char ':' pair.data with
    | some (k, v) => parseHeaderPairs (setHeader hs (trimSpace ⟨k⟩) (trimSpace ⟨v⟩)) rest
    | none => parseHeaderPairs hs rest

/-- Headers of one webhook: empty map unless the `WEBHOOK_i_HEADERS`
variable is non-empty, in which case its comma-separated pairs are parsed. -/
def parseWebhookHeaders (raw : String) : List (String × String) :=
  if raw ≠ "" then parseHeaderPairs [] (splitOnChar ',' raw) else []

/-- The per-URL loop of `loadWebhooks`.  `i` is the 1-based position in the
url list (Go uses `i+1` from a 0-based `range` index); blank entries are
skipped but still consume an index.  Timeout defaults to 30s and a
malformed `WEBHOOK_i_TIMEOUT` keeps the default. -/
def loadWebhooksLoop (env : String → String) (parseDuration : String → Option Int) :
    List String → Nat → List WebhookConfig
  | [], _ => []
  | url :: rest, i =>
    let url := trimSpace url
    if url = "" then loadWebhooksLoop env parseDuration rest (i + 1)
    else
      let headers := parseWebhookHeaders (env ("WEBHOOK_" ++ toString i ++ "_HEADERS"))
      let timeout :=
        let tval := env ("WEBHOOK_" ++ toString i ++ "_TIMEOUT")
        if tval ≠ "" then
          match parseDuration tval with
          | some d => d
          | none => 30 * second
        else 30 * second
      { name := "webhook-" ++ toString i, url := url, headers := headers, timeout := timeout }
        :: loadWebhooksLoop env parseDuration rest (i + 1)

/-- `config.loadWebhooks`: destinations come from the comma-separated
`WEBHOOK_URLS` variable; absence (`""`) or zero surviving entries is an
error. -/
def loadWebhooks (env : String → String) (parseDuration : String → Option Int) :
    Except String (List WebhookConfig) :=
  let urls := env "WEBHOOK_URLS"
  if urls = "" then
    Except.error "WEBHOOK_URLS environment variable is required"
  else
    let webhooks := loadWebhooksLoop env parseDuration (splitOnChar ',' urls) 1
    if webhooks.length = 0 then
      Except.error "no valid webhooks configured"
    else
      Except.ok webhooks

/-- `config.Load`: defaults first, then each optional variable overrides its
default only when it is non-empty AND parses; a parse failure is silently
ignored. -/
def Load (env : String → String) (parseDuration atoi : String → Option Int) :
    Except String Config :=
  match loadWebhooks env parseDuration with
  | Except.error e => Except.error ("failed to load webhooks: " ++ e)
  | Except.ok webhooks =>
    let checkInterval :=
      let val := env "CHECK_INTERVAL"
      if val ≠ "" then
        match parseDuration val with
        | some d => d
        | none => 24 * hour
      else 24 * hour
    let expirationThreshold :=
      let val := env "EXPIRATION_THRESHOLD"
      if val ≠ "" then
        match parseDuration val with
        | some d => d
        | none => 30 * 24 * hour
      else 30 * 24 * hour
    let ns :=
      let val := env "NAMESPACE"
      if val ≠ "" then val else ""
    let healthPort :=
      let val := env "HEALTH_PORT"
      if val ≠ "" then
        match atoi val with
        | some p => p
        | none => 8080
      else 8080
    let logLevel :=
      let val := env "LOG_LEVEL"
      if val ≠ "" then val else "info"
    Except.ok { webhooks := webhooks, checkInterval := checkInterval,
                expirationThreshold := expirationThreshold, ns := ns,
                healthPort := healthPort, logLevel := logLevel }

/-- The nested `Certificate` member of `webhook.NotificationPayload`. -/
structure CertificateInfo where
  name : String
  ns : String
  issuer : String
  dnsNames : List String
  expiresAt : Int
  deriving DecidableEq

/-- `webhook.NotificationPayload`: the wire payload of one event. -/
structure NotificationPayload where
  type : String
  message : String
  certificate : CertificateInfo
  timestamp : Int
  deriving DecidableEq

/-- `webhook.Notifier` (the HTTP client and logger carry no data relevant to
the embedding). -/
structure Notifier where
  webhooks : List WebhookConfig
  deriving DecidableEq

/-- One HTTP POST to one destination (`sendToWebhook`): pure I/O, modelled
as a parameter; `none` means a status in [200,300), `some e` any failure. -/
abbrev SendOutcome := WebhookConfig → NotificationPayload → Option String

/-- The fan-out loop of `sendNotification`: every destination is attempted
in order (`attempted` records their names), a failure overwrites
`lastError`, a success increments `successCount`. -/
def sendLoop (sendOutcome : SendOutcome) (payload : NotificationPayload) :
    List WebhookConfig → List String → Option String → Nat →
    List String × Option String × Nat
  | [], attempted, lastError, successCount => (attempted, lastError, successCount)
  | w :: rest, attempted, lastError, successCount =>
    match sendOutcome w payload with
    | some e => sendLoop sendOutcome payload rest (attempted ++ [w.name]) (some e) successCount
    | none => sendLoop sendOutcome payload rest (attempted ++ [w.name]) lastError (successCount + 1)

/-- `webhook.sendNotification`: `json.Marshal` of a `NotificationPayload`
cannot fail (programming invariant), so serialization is modelled total;
the call fails exactly when no destination succeeded, wrapping the last
per-destination error (Go renders a nil wrapped error as `%!w(<nil>)`,
reachable only with zero destinations). -/
def sendNotification (n : Notifier) (sendOutcome : SendOutcome)
    (payload : NotificationPayload) : Except String Unit :=
  let r := sendLoop sendOutcome payload n.webhooks [] none 0
  if r.2.2 = 0 then
    Except.error ("failed to send notification to any webhook: "
      ++ r.2.1.getD "%!w(<nil>)")
  else
    Except.ok ()

/-- Payload built by `webhook.SendExpiredNotification`.  Go stamps
`Timestamp` with `time.Now()`; the current instant is the `now` argument. -/
def expiredPayload (certName ns issuer : String) (dnsNames : List String)
    (expiresAt now : Int) : NotificationPayload :=
  { type := "expired"
    message := "Certificate " ++ ns ++ "/" ++ certName ++ " has expired"
    certificate := { name := certName, ns := ns, issuer := issuer,
                     dnsNames := dnsNames, expiresAt := expiresAt }
    timestamp := now }

/-- `daysUntilExpiry := int(time.Until(expiresAt).Hours() / 24)`:
`time.Until(expiresAt)` is `expiresAt - now` in nanoseconds and the Go
`int(...)` conversion truncates toward zero, so the computation is the
remaining duration divided by 24h, truncating toward zero (Go routes it
through `float64`, which is exact at the magnitudes involved). -/
def daysUntilExpiry (now expiresAt : Int) : Int :=
  Int.tdiv (expiresAt - now) (24 * hour)

/-- Payload built by `webhook.SendExpiringNotification`. -/
def expiringPayload (certName ns issuer : String) (dnsNames : List String)
    (expiresAt now : Int) : NotificationPayload :=
  { type := "expiring"
    message := "Certificate " ++ ns ++ "/" ++ certName ++ " expires in "
      ++ toString (daysUntilExpiry now expiresAt) ++ " days"
    certificate := { name := certName, ns := ns, issuer := issuer,
                     dnsNames := dnsNames, expiresAt := expiresAt }
    timestamp := now }

/-- `webhook.SendExpiredNotification`. -/
def SendExpiredNotification (n : Notifier) (sendOutcome : SendOutcome)
    (certName ns issuer : String) (dnsNames : List String)
    (expiresAt now : Int) : Except String Unit :=
  sendNotification n sendOutcome (expiredPayload certName ns issuer dnsNames expiresAt now)

/-- `webhook.SendExpiringNotification`. -/
def SendExpiringNotification (n : Notifier) (sendOutcome : SendOutcome)
    (certName ns issuer : String) (dnsNames : List String)
    (expiresAt now : Int) : Except String Unit :=
  sendNotification n sendOutcome (expiringPayload certName ns issuer dnsNames expiresAt now)

/-- One monitored cert-manager `Certificate`: identity, issuer reference
name, DNS names, and the optional `Status.NotAfter` expiry instant. -/
structure Certificate where
  name : String
  ns : String
  issuerRefName : String
  dnsNames : List String
  notAfter : Option Int
  deriving DecidableEq

/-- The monitor's `notifiedCerts` map: composite key to last-notified
instant (Go map assignment semantics). -/
abbrev NotifiedTable := String → Option Int

/-- `monitor.isCertificateExpired`: `now.After(NotAfter)`. -/
def isCertificateExpired (cert : Certificate) (now : Int) : Bool :=
  match cert.notAfter with
  | none => false
  | some t => decide (now > t)

/-- `monitor.isCertificateExpiring`: `now.Add(threshold).After(NotAfter)`. -/
def isCertificateExpiring (cfg : Config) (cert : Certificate) (now : Int) : Bool :=
  match cert.notAfter with
  | none => false
  | some t => decide (now + cfg.expirationThreshold > t)

/-- The composite key `fmt.Sprintf("%s/%s", cert.Namespace, cert.Name)`. -/
def certKey (cert : Certificate) : String := cert.ns ++ "/" ++ cert.name

/-- `monitor.shouldNotifyExpired`: notify when the key has no record or the
last notification is at least 24h old. -/
def shouldNotifyExpired (notified : NotifiedTable) (certKey : String) (now : Int) : Bool :=
  match notified certKey with
  | none => true
  | some lastNotified => decide (now - lastNotified ≥ 24 * hour)

/-- `monitor.shouldNotifyExpiring`: same body as `shouldNotifyExpired`. -/
def shouldNotifyExpiring (notified : NotifiedTable) (certKey : String) (now : Int) : Bool :=
  match notified certKey with
  | none => true
  | some lastNotified => decide (now - lastNotified ≥ 24 * hour)

/-- `monitor.markNotified`: map assignment `notifiedCerts[certKey] = now`. -/
def markNotified (notified : NotifiedTable) (certKey : String) (now : Int) : NotifiedTable :=
  fun k => if k = certKey then some now else notified k

/-- `monitor.getIssuerName`: the issuer reference name, or `"unknown"` when
it is empty. -/
def getIssuerName (cert : Certificate) : String :=
  if cert.issuerRefName ≠ "" then cert.issuerRefName else "unknown"

/-- Result of one `checkCertificate` call: the notified table afterwards,
the payloads handed to the delivery layer (at most one), and the returned
error. -/
structure CheckOutcome where
  notified : NotifiedTable
  fired : List NotificationPayload
  err : Option String

/-- `monitor.checkCertificate`: skip certificates without `NotAfter`; the
expired branch is evaluated first and returns in every case, so an expired
certificate never reaches the expiring branch; `markNotified` runs only
after a successful send — a send error returns first. -/
def checkCertificate (cfg : Config) (n : Notifier) (sendOutcome : SendOutcome)
    (notified : NotifiedTable) (cert : Certificate) (now : Int) : CheckOutcome :=
  match cert.notAfter with
  | none => ⟨notified, [], none⟩
  | some expirationTime =>
    let key := certKey cert
    if isCertificateExpired cert now then
      if !(shouldNotifyExpired notified key now) then ⟨notified, [], none⟩
      else
        let payload := expiredPayload cert.name cert.ns (getIssuerName cert)
          cert.dnsNames expirationTime now
        match sendNotification n sendOutcome payload with
        | Except.error e =>
          ⟨notified, [payload], some ("failed to send expired notification: " ++ e)⟩
        | Except.ok _ => ⟨markNotified notified key now, [payload], none⟩
    else if isCertificateExpiring cfg cert now then
      if !(shouldNotifyExpiring notified key now) then ⟨notified, [], none⟩
      else
        let payload := expiringPayload cert.name cert.ns (getIssuerName cert)
          cert.dnsNames expirationTime now
        match sendNotification n sendOutcome payload with
        | Except.error e =>
          ⟨notified, [payload], some ("failed to send expiring notification: " ++ e)⟩
        | Except.ok _ => ⟨markNotified notified key now, [payload], none⟩
    else ⟨notified, [], none⟩

/-- The per-tick loop of `monitor.checkCertificates`: `now` is computed
once per tick, a per-certificate error is logged and the loop continues,
threading the notified table. -/
def checkCertificates (cfg : Config) (n : Notifier) (sendOutcome : SendOutcome)
    (notified : NotifiedTable) (certs : List Certificate) (now : Int) : NotifiedTable :=
  match certs with
  | [] => notified
  | c :: rest =>
    checkCertificates cfg n sendOutcome
      (checkCertificate cfg n sendOutcome notified c now).notified rest now

/-- A one-destination configuration used by concrete witnesses. -/
def cfgEx : Config :=
  ⟨[⟨"webhook-1", "http://x", [], 30 * second⟩], 24 * hour, 720 * hour, "", 8080, "info"⟩

/-- The notifier over `cfgEx`'s destinations. -/
def nEx : Notifier := ⟨cfgEx.webhooks⟩

/-- A send outcome where every destination fails. -/
def soFail : SendOutcome := fun _ _ => some "connection refused"

/-- A send outcome where every destination succeeds. -/
def soOk : SendOutcome := fun _ _ => none

/-- The initial (empty) notified table. -/
def emptyTable : NotifiedTable := fun _ => none

/-- A certificate expiring at instant 0, used by concrete witnesses. -/
def certEx : Certificate := ⟨"c", "d", "letsencrypt", ["example.com"], some 0⟩

/-- A certificate with no expiry instant. -/
def certNoExpiry : Certificate := ⟨"c", "d", "", [], none⟩

/-- A concrete payload used by witnesses of the delivery layer. -/
def pEx : NotificationPayload := expiredPayload "c" "d" "letsencrypt" ["example.com"] 0 1

/-- An environment with one webhook url and nothing else set. -/
def envGood : String → String :=
  fun k => if k = "WEBHOOK_URLS" then "http://example.com" else ""

/-- An environment with one webhook url where every optional variable holds
an unparseable value. -/
def envBad : String → String :=
  fun k => if k = "WEBHOOK_URLS" then "http://example.com" else "garbage"

/-- The configuration `Load` produces from `envBad` when every optional
parse fails: all defaults retained. -/
def cfgDefaults : Config :=
  ⟨[⟨"webhook-1", "http://example.com", [], 30 * second⟩],
   24 * hour, 720 * hour, "garbage", 8080, "garbage"⟩

/-- Claim C3: both de-duplication checks implement the same predicate, true
exactly when the key has no record or the recorded instant is at least 24h
old; after recording at `T`, a check at `T + 23h59m` is false and at
`T + 24h` is true. -/
theorem shouldNotify_iff_cooldown (notified : NotifiedTable) (key : String) (now : Int) :
    (shouldNotifyExpired notified key now = shouldNotifyExpiring notified key now)
    ∧ (shouldNotifyExpired notified key now = true ↔
        notified key = none ∨ ∃ t, notified key = some t ∧ now - t ≥ 24 * hour)
    ∧ (∀ T : Int,
        shouldNotifyExpired (markNotified notified key T) key (T + 23 * hour + 59 * minute)
          = false
        ∧ shouldNotifyExpiring (markNotified notified key T) key (T + 24 * hour) = true) := by
  refine ⟨rfl, ?_, ?_⟩
  · unfold shouldNotifyExpired
    cases h : notified key with
    | none => simp
    | some t => simp
  · intro T
    constructor
    · simp [shouldNotifyExpired, markNotified, hour, minute, second]
      omega
    · simp [shouldNotifyExpiring, markNotified, hour, minute, second]

/-- Claim C6: a certificate without an expiry instant is skipped (no event,
table unchanged, no error); with expiry `e`, expired holds iff `now > e`
and expiring holds iff `now + threshold > e`. -/
theorem classification_iff (cfg : Config) (n : Notifier) (so : SendOutcome)
    (notified : NotifiedTable) (cert : Certificate) (now : Int) :
    (cert.notAfter = none →
      checkCertificate cfg n so notified cert now = ⟨notified, [], none⟩)
    ∧ (∀ e : Int, cert.notAfter = some e →
        ((isCertificateExpired cert now = true ↔ now > e)
         ∧ (isCertificateExpiring cfg cert now = true ↔ now + cfg.expirationThreshold > e))) := by
  constructor
  · intro h
    unfold checkCertificate
    rw [h]
  · intro e h
    constructor
    · unfold isCertificateExpired
      rw [h]
      simp
    · unfold isCertificateExpiring
      rw [h]
      simp

/-- Claim C10: an empty issuer reference name is reported as `"unknown"`,
otherwise verbatim; every payload fired by `checkCertificate` carries
`getIssuerName cert` in the certificate issuer field. -/
theorem issuer_name_unknown (cfg : Config) (n : Notifier) (so : SendOutcome)
    (notified : NotifiedTable) (cert : Certificate) (now : Int) :
    (cert.issuerRefName = "" → getIssuerName cert = "unknown")
    ∧ (cert.issuerRefName ≠ "" → getIssuerName cert = cert.issuerRefName)
    ∧ (∀ p ∈ (checkCertificate cfg n so notified cert now).fired,
        p.certificate.issuer = getIssuerName cert) := by
  refine ⟨?_, ?_, ?_⟩
  · intro h
    simp [getIssuerName, h]
  · intro h
    simp [getIssuerName, h]
  · intro p hp
    unfold checkCertificate at hp
    cases h : cert.notAfter with
    | none => rw [h] at hp; simp at hp
    | some e =>
      rw [h] at hp
      simp only at hp
      split at hp
      · split at hp
        · simp at hp
        · split at hp
          · simp at hp
            subst hp
            rfl
          · simp at hp
            subst hp
            rfl
      · split at hp
        · split at hp
          · simp at hp
          · split at hp
            · simp at hp
              subst hp
              rfl
            · simp at hp
              subst hp
              rfl
        · simp at hp

/-- Claim C2: for a certificate both expired and within the expiring
window, a single `checkCertificate` evaluation fires at most one payload,
and any fired payload has type `"expired"`. -/
theorem expired_shadows_expiring (cfg : Config) (n : Notifier) (so : SendOutcome)
    (notified : NotifiedTable) (cert : Certificate) (now e : Int)
    (h1 : cert.notAfter = some e) (h2 : now > e)
    (h3 : now + cfg.expirationThreshold > e) :
    (checkCertificate cfg n so notified cert now).fired.length ≤ 1
    ∧ ∀ p ∈ (checkCertificate cfg n so notified cert now).fired, p.type = "expired" := by
  have hexp : isCertificateExpired cert now = true := by
    unfold isCertificateExpired
    rw [h1]
    simpa using h2
  unfold checkCertificate
  rw [h1]
  simp only [hexp, if_true]
  split
  · exact ⟨by simp, by simp⟩
  · split
    · refine ⟨by simp, ?_⟩
      intro p hp
      simp at hp
      subst hp
      rfl
    · refine ⟨by simp, ?_⟩
      intro p hp
      simp at hp
      subst hp
      rfl

/-- Claim C1 counterexample: with a single destination that fails, the
expired notification attempt for `certEx` at tick instant 1 returns an
error, yet the key `"d/c"` is NOT recorded in the notified table — the
claim says it would be recorded with the tick's instant. -/
theorem failed_send_records_key_cex :
    (checkCertificate cfgEx nEx soFail emptyTable certEx 1).err ≠ none
    ∧ (checkCertificate cfgEx nEx soFail emptyTable certEx 1).notified "d/c" = none := by
  exact ⟨by decide, rfl⟩

/-- Claim C1 amended: when the notification attempt for a certificate
fails (`checkCertificate` returns an error), the key is NOT recorded — the
notified table is returned unchanged, so the object stays eligible and is
re-attempted at the next qualifying tick without waiting out the 24h
cooldown (the cooldown only starts on a successful delivery). -/
theorem failed_send_leaves_table_unchanged (cfg : Config) (n : Notifier)
    (so : SendOutcome) (notified : NotifiedTable) (cert : Certificate) (now : Int)
    (h : (checkCertificate cfg n so notified cert now).err ≠ none) :
    (checkCertificate cfg n so notified cert now).notified = notified := by
  revert h
  unfold checkCertificate
  cases hna : cert.notAfter with
  | none => intro h; rfl
  | some e =>
    simp only
    split
    · split
      · intro h; rfl
      · split
        · intro h; rfl
        · intro h; exact absurd rfl h
    · split
      · split
        · intro h; rfl
        · split
          · intro h; rfl
          · intro h; exact absurd rfl h
      · intro h; rfl

/-- `checkCertificate` never removes a key from the notified table. -/
theorem checkCertificate_preserves_keys (cfg : Config) (n : Notifier)
    (so : SendOutcome) (notified : NotifiedTable) (cert : Certificate) (now : Int)
    (k : String) (h : notified k ≠ none) :
    (checkCertificate cfg n so notified cert now).notified k ≠ none := by
  unfold checkCertificate
  cases hna : cert.notAfter with
  | none => exact h
  | some e =>
    simp only
    split
    · split
      · exact h
      · split
        · exact h
        · simp only [markNotified]
          split
          · simp
          · exact h
    · split
      · split
        · exact h
        · split
          · exact h
          · simp only [markNotified]
            split
            · simp
            · exact h
      · exact h

/-- Claim C8: `markNotified` overwrites the single record for the key and
leaves every other key untouched (Go map assignment — at most one record
per key), and a tick (`checkCertificates`) never removes a key, so the key
set grows monotonically. -/
theorem notified_table_one_record_monotone (notified : NotifiedTable) (key : String)
    (t : Int) (cfg : Config) (n : Notifier) (so : SendOutcome)
    (certs : List Certificate) (now : Int) :
    (markNotified notified key t key = some t)
    ∧ (∀ k, k ≠ key → markNotified notified key t k = notified k)
    ∧ (∀ k, notified k ≠ none →
        checkCertificates cfg n so notified certs now k ≠ none) := by
  refine ⟨by simp [markNotified], ?_, ?_⟩
  · intro k hk
    simp [markNotified, hk]
  · intro k
    induction certs generalizing notified with
    | nil => intro h; exact h
    | cons c rest ih =>
      intro h
      unfold checkCertificates
      exact ih _ (checkCertificate_preserves_keys cfg n so notified c now k h)

/-- The fan-out loop attempts every destination, whatever the outcomes. -/
theorem sendLoop_attempts_all (so : SendOutcome) (p : NotificationPayload)
    (ws : List WebhookConfig) (att : List String) (le : Option String) (sc : Nat) :
    (sendLoop so p ws att le sc).1 = att ++ ws.map (fun w => w.name) := by
  induction ws generalizing att le sc with
  | nil => simp [sendLoop]
  | cons w rest ih =>
    unfold sendLoop
    cases h : so w p with
    | none => simp [ih]
    | some e => simp [ih]

/-- The success counter is zero exactly when it started at zero and every
destination failed. -/
theorem sendLoop_success_zero_iff (so : SendOutcome) (p : NotificationPayload)
    (ws : List WebhookConfig) (att : List String) (le : Option String) (sc : Nat) :
    ((sendLoop so p ws att le sc).2.2 = 0 ↔ sc = 0 ∧ ∀ w ∈ ws, so w p ≠ none) := by
  induction ws generalizing att le sc with
  | nil => simp [sendLoop]
  | cons w rest ih =>
    unfold sendLoop
    cases h : so w p with
    | none =>
      rw [ih]
      simp [h]
    | some e =>
      rw [ih]
      simp [h]

/-- When every destination fails, the loop's final `lastError` is the last
destination's error. -/
theorem sendLoop_lastError_all_fail (so : SendOutcome) (p : NotificationPayload)
    (ws : List WebhookConfig) (hall : ∀ w ∈ ws, so w p ≠ none)
    (att : List String) (le : Option String) (sc : Nat) (hne : ws ≠ []) :
    ∃ e wl, ws.getLast? = some wl ∧ so wl p = some e
      ∧ (sendLoop so p ws att le sc).2.1 = some e := by
  induction ws generalizing att le sc with
  | nil => exact absurd rfl hne
  | cons w rest ih =>
    cases rest with
    | nil =>
      cases h : so w p with
      | none => exact absurd h (hall w (by simp))
      | some e =>
        refine ⟨e, w, by simp, h, ?_⟩
        unfold sendLoop
        rw [h]
        rfl
    | cons r rs =>
      have hallr : ∀ x ∈ r :: rs, so x p ≠ none :=
        fun x hx => hall x (List.mem_cons_of_mem _ hx)
      cases h : so w p with
      | none => exact absurd h (hall w (by simp))
      | some e =>
        obtain ⟨e₀, wl, hwl, he₀, hloop⟩ :=
          ih hallr (att ++ [w.name]) (some e) sc (by simp)
        refine ⟨e₀, wl, ?_, he₀, ?_⟩
        · rw [List.getLast?_cons_cons]
          exact hwl
        · unfold sendLoop
          rw [h]
          exact hloop

/-- Claim C4: delivery attempts every destination in order with no
short-circuit, reports success exactly when at least one destination
succeeded, and when every destination failed it reports an error wrapping
the last-observed per-destination error. -/
theorem delivery_fanout_spec (ws : List WebhookConfig) (so : SendOutcome)
    (p : NotificationPayload) (hne : ws ≠ []) :
    ((sendLoop so p ws [] none 0).1 = ws.map (fun w => w.name))
    ∧ (sendNotification ⟨ws⟩ so p = Except.ok () ↔ ∃ w ∈ ws, so w p = none)
    ∧ ((∀ w ∈ ws, so w p ≠ none) →
        ∃ e, so (ws.getLast hne) p = some e
          ∧ sendNotification ⟨ws⟩ so p
              = Except.error ("failed to send notification to any webhook: " ++ e)) := by
  refine ⟨by simpa using sendLoop_attempts_all so p ws [] none 0, ?_, ?_⟩
  · simp only [sendNotification]
    split
    · rename_i hz
      rw [sendLoop_success_zero_iff] at hz
      simp only [ne_eq] at hz
      constructor
      · intro h; exact absurd h (by simp)
      · intro ⟨w, hw, hsucc⟩
        exact absurd hsucc (hz.2 w hw)
    · rename_i hz
      rw [sendLoop_success_zero_iff] at hz
      simp only [true_and] at hz
      constructor
      · intro _
        by_contra hno
        push_neg at hno
        exact hz (fun w hw => hno w hw)
      · intro _; rfl
  · intro hall
    obtain ⟨e, wl, hwl, he, hloop⟩ :=
      sendLoop_lastError_all_fail so p ws hall [] none 0 hne
    have hwl₂ : ws.getLast hne = wl := by
      have := List.getLast?_eq_getLast ws hne
      rw [this] at hwl
      exact Option.some_inj.mp hwl
    refine ⟨e, by rw [hwl₂]; exact he, ?_⟩
    simp only [sendNotification]
    have hz : (sendLoop so p ws [] none 0).2.2 = 0 := by
      rw [sendLoop_success_zero_iff]
      exact ⟨rfl, hall⟩
    rw [if_pos hz, hloop]
    rfl

/-- Claim C5: the expiring message reports the remaining duration divided
by 24h truncated toward zero (the quotient `d` satisfies
`d*24h ≤ remaining < (d+1)*24h`); a remaining duration of 36h produces the
message `"... expires in 1 days"` and exactly 48h produces
`"... expires in 2 days"`. -/
theorem expiring_message_days (certName ns issuer : String) (dns : List String)
    (now r : Int) (hr : 0 ≤ r) :
    (daysUntilExpiry now (now + r)) * (24 * hour) ≤ r
    ∧ r < (daysUntilExpiry now (now + r) + 1) * (24 * hour)
    ∧ (expiringPayload certName ns issuer dns (now + 36 * hour) now).message
        = "Certificate " ++ ns ++ "/" ++ certName ++ " expires in 1 days"
    ∧ (expiringPayload certName ns issuer dns (now + 48 * hour) now).message
        = "Certificate " ++ ns ++ "/" ++ certName ++ " expires in 2 days" := by
  have hsub : now + r - now = r := by ring
  have hpos : (0 : Int) < 24 * hour := by norm_num [hour, minute, second]
  have hd : daysUntilExpiry now (now + r) = r / (24 * hour) := by
    unfold daysUntilExpiry
    rw [hsub]
    exact Int.tdiv_eq_ediv hr (le_of_lt hpos)
  have h36 : daysUntilExpiry now (now + 36 * hour) = 1 := by
    unfold daysUntilExpiry
    rw [show now + 36 * hour - now = 36 * hour by ring]
    rfl
  have h48 : daysUntilExpiry now (now + 48 * hour) = 2 := by
    unfold daysUntilExpiry
    rw [show now + 48 * hour - now = 48 * hour by ring]
    rfl
  refine ⟨?_, ?_, ?_, ?_⟩
  · rw [hd]
    exact Int.ediv_mul_le r (ne_of_gt hpos)
  · rw [hd]
    exact Int.lt_ediv_add_one_mul_self r hpos
  · simp only [expiringPayload, h36]
    rw [show toString (1 : Int) = "1" from rfl]
    simp only [String.append_assoc]
    rw [show (" expires in " ++ ("1" ++ " days") : String) = " expires in 1 days" from rfl]
  · simp only [expiringPayload, h48]
    rw [show toString (2 : Int) = "2" from rfl]
    simp only [String.append_assoc]
    rw [show (" expires in " ++ ("2" ++ " days") : String) = " expires in 2 days" from rfl]

/-- The url loop yields no destination exactly when every entry is blank
after trimming. -/
theorem loadWebhooksLoop_eq_nil_iff (env : String → String)
    (pd : String → Option Int) (l : List String) (i : Nat) :
    loadWebhooksLoop env pd l i = [] ↔ ∀ s ∈ l, trimSpace s = "" := by
  induction l generalizing i with
  | nil => simp [loadWebhooksLoop]
  | cons s rest ih =>
    simp only [loadWebhooksLoop]
    split
    · rename_i h
      rw [ih]
      simp [h]
    · rename_i h
      simp [h]

/-- Claim C7: configuration loading succeeds exactly when `WEBHOOK_URLS` is
non-empty and contains a non-blank entry; on success at least one
destination is configured; `Load` fails exactly when `loadWebhooks` fails,
so the delivery call is never reached with an empty destination list. -/
theorem webhooks_required_at_startup (env : String → String)
    (pd atoi : String → Option Int) :
    ((∃ ws, loadWebhooks env pd = Except.ok ws) ↔
      env "WEBHOOK_URLS" ≠ ""
        ∧ ∃ s ∈ splitOnChar ',' (env "WEBHOOK_URLS"), trimSpace s ≠ "")
    ∧ (∀ ws, loadWebhooks env pd = Except.ok ws → 1 ≤ ws.length)
    ∧ ((∃ c, Load env pd atoi = Except.ok c) ↔
        (∃ ws, loadWebhooks env pd = Except.ok ws)) := by
  refine ⟨?_, ?_, ?_⟩
  · simp only [loadWebhooks]
    split
    · rename_i h
      simp [h]
    · rename_i h
      split
      · rename_i hlen
        rw [List.length_eq_zero, loadWebhooksLoop_eq_nil_iff] at hlen
        constructor
        · intro ⟨ws, hws⟩
          cases hws
        · intro ⟨hne, s, hs, hsne⟩
          exact absurd (hlen s hs) hsne
      · rename_i hlen
        constructor
        · intro _
          refine ⟨h, ?_⟩
          by_contra hall
          push_neg at hall
          exact hlen (by rw [List.length_eq_zero, loadWebhooksLoop_eq_nil_iff]; exact hall)
        · intro _
          exact ⟨_, rfl⟩
  · intro ws hws
    simp only [loadWebhooks] at hws
    split at hws
    · cases hws
    · split at hws
      · cases hws
      · rename_i hlen
        cases hws
        omega
  · simp only [Load]
    constructor
    · intro ⟨c, hc⟩
      split at hc
      · cases hc
      · rename_i ws hws
        exact ⟨ws, hws⟩
    · intro ⟨ws, hws⟩
      rw [hws]
      exact ⟨_, rfl⟩

/-- Under a parser that rejects every per-webhook timeout value, every
destination built by the url loop keeps the 30s default. -/
theorem loadWebhooksLoop_timeout_default (env : String → String)
    (pd : String → Option Int)
    (h : ∀ s, pd (env ("WEBHOOK_" ++ s ++ "_TIMEOUT")) = none)
    (l : List String) (i : Nat) :
    ∀ w ∈ loadWebhooksLoop env pd l i, w.timeout = 30 * second := by
  induction l generalizing i with
  | nil => simp [loadWebhooksLoop]
  | cons s rest ih =>
    intro w hw
    simp only [loadWebhooksLoop] at hw
    split at hw
    · exact ih _ w hw
    · rw [List.mem_cons] at hw
      cases hw with
      | inl hw =>
        subst hw
        simp only
        split
        · rw [h (toString i)]
        · rfl
      | inr hw => exact ih _ w hw

/-- Claim C9: when every optional variable fails to parse
(`CHECK_INTERVAL`, `EXPIRATION_THRESHOLD`, `HEALTH_PORT`, and every
`WEBHOOK_i_TIMEOUT`), loading still succeeds whenever the destination list
loads, and the built-in defaults are retained: 24h interval, 720h
threshold, port 8080, 30s per-destination timeout. -/
theorem malformed_optional_config_ignored (env : String → String)
    (pd atoi : String → Option Int)
    (h1 : pd (env "CHECK_INTERVAL") = none)
    (h2 : pd (env "EXPIRATION_THRESHOLD") = none)
    (h3 : atoi (env "HEALTH_PORT") = none)
    (h4 : ∀ s, pd (env ("WEBHOOK_" ++ s ++ "_TIMEOUT")) = none) :
    ((∃ c, Load env pd atoi = Except.ok c) ↔
      (∃ ws, loadWebhooks env pd = Except.ok ws))
    ∧ (∀ c, Load env pd atoi = Except.ok c →
        c.checkInterval = 24 * hour
        ∧ c.expirationThreshold = 720 * hour
        ∧ c.healthPort = 8080
        ∧ ∀ w ∈ c.webhooks, w.timeout = 30 * second) := by
  constructor
  · simp only [Load]
    constructor
    · intro ⟨c, hc⟩
      split at hc
      · cases hc
      · rename_i ws hws
        exact ⟨ws, hws⟩
    · intro ⟨ws, hws⟩
      rw [hws]
      exact ⟨_, rfl⟩
  · intro c hc
    simp only [Load] at hc
    split at hc
    · cases hc
    · rename_i ws hws
      cases hc
      refine ⟨?_, ?_, ?_, ?_⟩
      · simp only
        split
        · rw [h1]
        · rfl
      · simp only
        split
        · rw [h2]
          simp [hour, minute, second]
        · simp [hour, minute, second]
      · simp only
        split
        · rw [h3]
        · rfl
      · simp only
        simp only [loadWebhooks] at hws
        split at hws
        · cases hws
        · split at hws
          · cases hws
          · cases hws
            exact loadWebhooksLoop_timeout_default env pd h4 _ _

/-- Witness for the amended C1 theorem: a concrete failing send leaves the
(empty) table unchanged. -/
theorem failed_send_leaves_table_unchanged_w :
    (checkCertificate cfgEx nEx soFail emptyTable certEx 1).notified = emptyTable :=
  failed_send_leaves_table_unchanged cfgEx nEx soFail emptyTable certEx 1 (by decide)

/-- Witness for C2 at a certificate both expired and within the window. -/
theorem expired_shadows_expiring_w :
    (checkCertificate cfgEx nEx soOk emptyTable certEx 1).fired.length ≤ 1 :=
  (expired_shadows_expiring cfgEx nEx soOk emptyTable certEx 1 0 rfl (by decide) (by decide)).1

/-- Witness for C4 at a one-destination list where the send fails. -/
theorem delivery_fanout_spec_w :
    (sendLoop soFail pEx cfgEx.webhooks [] none 0).1 = ["webhook-1"] := by
  have h := (delivery_fanout_spec cfgEx.webhooks soFail pEx (by decide)).1
  rw [h]
  rfl

/-- Witness for C5 at the concrete remaining durations of the claim. -/
theorem expiring_message_days_w :
    (expiringPayload "test-cert" "default" "letsencrypt" ["example.com"]
        ((0 : Int) + 36 * hour) 0).message
      = "Certificate default/test-cert expires in 1 days" := by
  have h := (expiring_message_days "test-cert" "default" "letsencrypt" ["example.com"]
    0 0 (by decide)).2.2.1
  rw [h]
  rfl

/-- Witness for C6: a certificate without expiry is skipped, and a concrete
expired certificate classifies as expired. -/
theorem classification_iff_w :
    checkCertificate cfgEx nEx soOk emptyTable certNoExpiry 5 = ⟨emptyTable, [], none⟩
    ∧ (isCertificateExpired certEx 10 = true ↔ (10 : Int) > 0) :=
  ⟨(classification_iff cfgEx nEx soOk emptyTable certNoExpiry 5).1 rfl,
   ((classification_iff cfgEx nEx soOk emptyTable certEx 10).2 0 rfl).1⟩

/-- Witness for C7: the concrete one-url environment yields a destination
list of length at least one. -/
theorem webhooks_required_at_startup_w :
    1 ≤ ([⟨"webhook-1", "http://example.com", [], 30 * second⟩] : List WebhookConfig).length :=
  (webhooks_required_at_startup envGood (fun _ => none) (fun _ => none)).2.1 _ (by rfl)

/-- Witness for C8 at a concrete table: the record is written, another key
is untouched, and a tick preserves the recorded key. -/
theorem notified_table_one_record_monotone_w :
    markNotified emptyTable "d/c" 5 "d/c" = some 5
    ∧ markNotified emptyTable "d/c" 5 "other" = none
    ∧ checkCertificates cfgEx nEx soOk (markNotified emptyTable "d/c" 5) [certEx] 6 "d/c"
        ≠ none := by
  have h := notified_table_one_record_monotone emptyTable "d/c" 5 cfgEx nEx soOk [certEx] 6
  have h₂ := notified_table_one_record_monotone (markNotified emptyTable "d/c" 5) "x" 0
    cfgEx nEx soOk [certEx] 6
  exact ⟨h.1, by rw [h.2.1 "other" (by decide)]; rfl, h₂.2.2 "d/c" (by decide)⟩

/-- Witness for C9: with `envBad` and parsers that reject everything,
loading succeeds with every default retained. -/
theorem malformed_optional_config_ignored_w :
    cfgDefaults.checkInterval = 24 * hour
    ∧ cfgDefaults.expirationThreshold = 720 * hour
    ∧ cfgDefaults.healthPort = 8080 := by
  have h := (malformed_optional_config_ignored envBad (fun _ => none) (fun _ => none)
    rfl rfl rfl (fun _ => rfl)).2 cfgDefaults (by rfl)
  exact ⟨h.1, h.2.1, h.2.2.1⟩

/-- Witness for C10 at concrete certificates with empty and non-empty
issuer reference names. -/
theorem issuer_name_unknown_w :
    getIssuerName certNoExpiry = "unknown" ∧ getIssuerName certEx = "letsencrypt" :=
  ⟨(issuer_name_unknown cfgEx nEx soOk emptyTable certNoExpiry 0).1 rfl,
   (issuer_name_unknown cfgEx nEx soOk emptyTable certEx 0).2.1 (by decide)⟩

end CertNotifier
